import Mathlib

/-!
Verification of the `Homework-Blockchain` repository, file `Week 1/keccak256.py`.

The script reads one line from standard input, attempts to clear the terminal
with `os.system('CLS')`, prints the raw input, encodes it as UTF-8 bytes,
hashes the bytes with `sha3.keccak_256` (the original Keccak padding, as used
by Ethereum), and prints the hexadecimal digest.

This file embeds the script shallowly: the Keccak-256 primitive is modelled by
an executable Lean implementation of the Keccak sponge (rate 1600-512 = 1088
bits, 0x01 domain padding), UTF-8 encoding mirrors Python `str.encode()`, and
the script's sequence of side effects is modelled by an event trace.
-/

namespace HomeworkBlockchain

/-! ## Keccak-256 primitive (semantics of `sha3.keccak_256`)

State: 25 lanes of 64 bits, stored as a `List Nat` where lane `(x, y)` sits at
index `x + 5 * y` and every lane value is kept below `2 ^ 64`.
-/

/-- Two to the sixty-fourth power, the lane modulus. -/
def w64 : Nat := 18446744073709551616

/-- Left rotation of a 64-bit lane by `n` places. -/
def rotl64 (x n : Nat) : Nat :=
  ((x <<< n) ||| (x >>> (64 - n))) % w64

/-- Bitwise complement of a 64-bit lane. -/
def not64 (x : Nat) : Nat := x ^^^ (w64 - 1)

/-- Keccak theta step: each lane is xored with the parities of two columns. -/
def theta (st : List Nat) : List Nat :=
  let C := fun x =>
    st.getD x 0 ^^^ st.getD (x + 5) 0 ^^^ st.getD (x + 10) 0 ^^^
      st.getD (x + 15) 0 ^^^ st.getD (x + 20) 0
  let D := fun x => C ((x + 4) % 5) ^^^ rotl64 (C ((x + 1) % 5)) 1
  (List.range 25).map (fun i => st.getD i 0 ^^^ D (i % 5))

/-- The lane visited at step `t` of the rho offset walk of FIPS 202: start at
`(1, 0)`, then `(x, y)` moves to `(y, (2 x + 3 y) % 5)`. -/
def rhoPos : Nat → Nat × Nat
  | 0 => (1, 0)
  | t + 1 => ((rhoPos t).2, (2 * (rhoPos t).1 + 3 * (rhoPos t).2) % 5)

/-- Keccak rotation offsets, indexed by `x + 5 * y`: the walk step `t` that
visits an index rotates it by the triangular number `(t+1)(t+2)/2` reduced
modulo the lane width; index 0 is never visited and keeps offset 0. -/
def rhoOffsets : List Nat :=
  (List.range 25).map (fun j =>
    (List.range 24).foldl (fun acc t =>
      if (rhoPos t).1 + 5 * (rhoPos t).2 = j
      then (t + 1) * (t + 2) / 2 % 64 else acc) 0)

/-- Combined rho and pi steps: lane `(x, y)` is rotated by its offset and moved
to position `(y, (2 * x + 3 * y) % 5)`. The map below computes, for each output
index, the unique input lane that lands there. -/
def rhoPi (st : List Nat) : List Nat :=
  (List.range 25).map (fun j =>
    let X := j % 5
    let Y := j / 5
    let x := (3 * (Y + 2 * X)) % 5
    let y := X
    rotl64 (st.getD (x + 5 * y) 0) (rhoOffsets.getD (x + 5 * y) 0))

/-- Keccak chi step: nonlinear mixing along each row. -/
def chi (st : List Nat) : List Nat :=
  (List.range 25).map (fun j =>
    let x := j % 5
    let y := j / 5
    st.getD j 0 ^^^ (not64 (st.getD ((x + 1) % 5 + 5 * y) 0) &&&
      st.getD ((x + 2) % 5 + 5 * y) 0))

/-- Keccak iota step: xor the round constant into lane `(0, 0)`. -/
def iotaStep (rc : Nat) (st : List Nat) : List Nat :=
  (List.range 25).map (fun j => if j = 0 then st.getD 0 0 ^^^ rc else st.getD j 0)

/-- The byte-wide linear feedback register generating the Keccak round
constants (FIPS 202, section 3.2.5): each step doubles the byte and, when the
top bit falls out, folds it back with the polynomial
x^8 + x^6 + x^5 + x^4 + 1. -/
def rcByte : Nat → Nat
  | 0 => 1
  | t + 1 => ((rcByte t <<< 1) ^^^ ((rcByte t >>> 7) * 0x71)) % 256

/-- Round constant number `i` of Keccak-f[1600]: the low bit of the register
at step `7 i + j` lands at bit position `2 ^ j - 1` of the lane. -/
def roundConstant (i : Nat) : Nat :=
  (List.range 7).foldl
    (fun acc j => acc ||| ((rcByte (j + 7 * i) &&& 1) <<< (2 ^ j - 1))) 0

/-- The 24 round constants of Keccak-f[1600]. -/
def roundConstants : List Nat := (List.range 24).map roundConstant

/-- One round of Keccak-f[1600]. -/
def keccakRound (st : List Nat) (rc : Nat) : List Nat :=
  iotaStep rc (chi (rhoPi (theta st)))

/-- The full Keccak-f[1600] permutation: 24 rounds. -/
def keccakF (st : List Nat) : List Nat :=
  roundConstants.foldl keccakRound st

/-- Rate of Keccak-256 in bytes: (1600 - 2 * 256) / 8. -/
def keccakRate : Nat := 136

/-- Original Keccak multi-rate padding (domain byte 0x01), as used by
`sha3.keccak_256` (pre-NIST padding, not SHA3-256). -/
def keccakPad (msg : List Nat) : List Nat :=
  let r := keccakRate - msg.length % keccakRate
  if r = 1 then msg ++ [0x81]
  else msg ++ [0x01] ++ List.replicate (r - 2) 0 ++ [0x80]

/-- Interpret up to eight bytes as a little-endian 64-bit lane. -/
def bytesToLane (bs : List Nat) : Nat :=
  bs.foldr (fun b acc => acc * 256 + b) 0

/-- Absorb one 136-byte block: xor its 17 lanes into the state, then permute. -/
def absorbBlock (st block : List Nat) : List Nat :=
  keccakF ((List.range 25).map (fun i =>
    st.getD i 0 ^^^ (if i < 17 then bytesToLane ((block.drop (8 * i)).take 8) else 0)))

/-- Absorb `n` blocks of the (padded) message into the state. -/
def absorbN : Nat → List Nat → List Nat → List Nat
  | 0, st, _ => st
  | n + 1, st, msg => absorbN n (absorbBlock st (msg.take keccakRate)) (msg.drop keccakRate)

/-- Serialize one lane to eight little-endian bytes. -/
def laneToBytes (l : Nat) : List Nat :=
  (List.range 8).map (fun k => (l >>> (8 * k)) % 256)

/-- Serialize the state to its 200-byte form. -/
def stateBytes (st : List Nat) : List Nat :=
  (st.map laneToBytes).flatten

/-- Keccak-256 of a byte sequence: pad, absorb all blocks, squeeze 32 bytes.
This is the semantics of the script's external call `sha3.keccak_256`. -/
def keccak_256 (msg : List Nat) : List Nat :=
  let padded := keccakPad msg
  let final := absorbN (padded.length / keccakRate) (List.replicate 25 0) padded
  (stateBytes final).take 32

/-! ## Hex rendering (semantics of `.hexdigest()`) -/

/-- The sixteen lowercase hexadecimal digits, in value order. -/
def hexDigits : String := "0123456789abcdef"

/-- The lowercase hexadecimal digits as a character list. -/
def hexCharsList : List Char := hexDigits.data

/-- The lowercase hexadecimal digit for a value below 16. -/
def hexChar (n : Nat) : Char := hexCharsList.getD n '0'

/-- Two lowercase hex characters per byte, most significant nibble first. -/
def hexOfBytes (bs : List Nat) : List Char :=
  bs.flatMap (fun b => [hexChar (b / 16), hexChar (b % 16)])

/-- Hexadecimal rendering of a byte sequence, as Python `.hexdigest()`. -/
def hexdigest (bs : List Nat) : String := String.mk (hexOfBytes bs)

/-! ## UTF-8 encoding (semantics of Python `str.encode()`) -/

/-- UTF-8 bytes of a single Unicode code point. -/
def utf8EncodeChar (c : Nat) : List Nat :=
  if c < 0x80 then [c]
  else if c < 0x800 then
    [0xC0 ||| (c >>> 6), 0x80 ||| (c &&& 0x3F)]
  else if c < 0x10000 then
    [0xE0 ||| (c >>> 12), 0x80 ||| ((c >>> 6) &&& 0x3F), 0x80 ||| (c &&& 0x3F)]
  else
    [0xF0 ||| (c >>> 18), 0x80 ||| ((c >>> 12) &&& 0x3F),
     0x80 ||| ((c >>> 6) &&& 0x3F), 0x80 ||| (c &&& 0x3F)]

/-- UTF-8 encoding of a string, the semantics of `nama_ibu.encode()`. -/
def strEncode (s : String) : List Nat :=
  s.data.flatMap (fun c => utf8EncodeChar c.toNat)

/-- The digest the script prints for an input line: hexdigest of the
Keccak-256 hash of the UTF-8 bytes of the line. -/
def digestOf (s : String) : String := hexdigest (keccak_256 (strEncode s))

/-! ## Script model

The script is a straight line of effects; we model its observable behaviour
as an event trace, parameterised by the input line and by the exit status the
operating system reports for `os.system('CLS')` (Python's `os.system` returns
that status instead of raising when the command fails).
-/

/-- One observable side effect of the script. -/
inductive Event where
  | printLine (text : String)
  | readInput (prompt : String) (line : String)
  | clearScreen (cmd : String) (status : Int)
  | printPair (label : String) (payload : String)
deriving DecidableEq

/-- First banner line printed by the script. -/
def bannerText : String := "Implementasi Keccak 256 di python\n"

/-- Second banner line printed by the script. -/
def separatorText : String := "+++++++++++++++++++++++++++++++++++++"

/-- Prompt passed to `input`. -/
def promptText : String := "Masukan Nama Ibu kandung: "

/-- Label of the print that echoes the raw input. -/
def beforeLabel : String := "Nama Ibu kandung sebelum di hash: \n"

/-- Label of the print that shows the digest. -/
def afterLabel : String := "Nama Ibu kandung setelah di hash: \n"

/-- The values of the script's variables on a run with input `line`, named as
in the source: `nama_ibu = input(...)`, `encoded = nama_ibu.encode()`,
`obj_encoded = sha3.keccak_256(encoded)`. -/
structure RunData where
  nama_ibu : String
  encoded : List Nat
  obj_encoded : List Nat
  hexOut : String
deriving DecidableEq

/-- The straight-line data flow of the script. -/
def runData (line : String) : RunData :=
  let nama_ibu := line
  let encoded := strEncode nama_ibu
  let obj_encoded := keccak_256 encoded
  { nama_ibu := nama_ibu, encoded := encoded, obj_encoded := obj_encoded,
    hexOut := hexdigest obj_encoded }

/-- The script's sequence of side effects on a run that reads `line`, in
source order: two banner prints, the `input` call, `os.system('CLS')`, the
echo of the raw input, and the digest print. -/
def programTrace (clearStatus : Int) (line : String) : List Event :=
  [Event.printLine bannerText,
   Event.printLine separatorText,
   Event.readInput promptText line,
   Event.clearScreen "CLS" clearStatus,
   Event.printPair beforeLabel line,
   Event.printPair afterLabel (digestOf line)]

/-- The only failure of the script: `input()` raising end-of-file when
standard input is closed or unreadable. -/
inductive RunError where
  | inputUnavailable
deriving DecidableEq

/-- Whole-script semantics: `none` stands for a closed or unreadable standard
input, on which `input()` raises and the run aborts; otherwise the run is the
full trace. -/
def runScript (clearStatus : Int) (stdin : Option String) :
    Except RunError (List Event) :=
  match stdin with
  | none => Except.error RunError.inputUnavailable
  | some line => Except.ok (programTrace clearStatus line)

/-- Process exit status: zero on a completed run, nonzero on the unhandled
end-of-file error. -/
def exitCode : Except RunError (List Event) → Nat
  | Except.error _ => 1
  | Except.ok _ => 0

/-! ## Structural lemmas about the primitive -/

/-- Serializing a lane always yields eight bytes. -/
theorem laneToBytes_length (l : Nat) : (laneToBytes l).length = 8 := by
  simp [laneToBytes]

/-- Every serialized lane byte is below 256. -/
theorem laneToBytes_lt (l : Nat) : ∀ b ∈ laneToBytes l, b < 256 := by
  intro b hb
  simp only [laneToBytes, List.mem_map, List.mem_range] at hb
  obtain ⟨k, _, hk⟩ := hb
  exact hk ▸ Nat.mod_lt _ (by norm_num)

/-- A Keccak round always returns a 25-lane state. -/
theorem keccakRound_length (st : List Nat) (rc : Nat) :
    (keccakRound st rc).length = 25 := by
  simp [keccakRound, iotaStep]

/-- Folding rounds over any constant list preserves the 25-lane shape. -/
theorem foldl_keccakRound_length (rcs : List Nat) : ∀ st : List Nat,
    st.length = 25 → (List.foldl keccakRound st rcs).length = 25 := by
  induction rcs with
  | nil => intro st h; exact h
  | cons rc rest ih => intro st h; exact ih _ (keccakRound_length _ _)

/-- The permutation of a 25-lane state is a 25-lane state. -/
theorem keccakF_length (st : List Nat) (h : st.length = 25) :
    (keccakF st).length = 25 :=
  foldl_keccakRound_length _ st h

/-- Absorbing a block always returns a 25-lane state. -/
theorem absorbBlock_length (st block : List Nat) :
    (absorbBlock st block).length = 25 := by
  simp only [absorbBlock]
  exact keccakF_length _ (by simp)

/-- Absorbing any number of blocks preserves the 25-lane shape. -/
theorem absorbN_length (n : Nat) : ∀ st msg : List Nat, st.length = 25 →
    (absorbN n st msg).length = 25 := by
  induction n with
  | zero => intro st msg h; exact h
  | succ n ih =>
    intro st msg h
    simp only [absorbN]
    exact ih _ _ (absorbBlock_length _ _)

/-- The serialized state has eight bytes per lane. -/
theorem stateBytes_length (st : List Nat) :
    (stateBytes st).length = 8 * st.length := by
  induction st with
  | nil => rfl
  | cons a t ih =>
    simp only [stateBytes, List.map_cons, List.flatten_cons, List.length_append,
      laneToBytes_length, List.length_cons] at *
    omega

/-- Every byte of the serialized state is below 256. -/
theorem stateBytes_lt (st : List Nat) : ∀ b ∈ stateBytes st, b < 256 := by
  intro b hb
  simp only [stateBytes, List.mem_flatten, List.mem_map] at hb
  obtain ⟨bs, ⟨l, _, rfl⟩, hbbs⟩ := hb
  exact laneToBytes_lt l b hbbs

/-- The digest is always exactly 32 bytes, whatever the message. -/
theorem keccak_256_length (msg : List Nat) : (keccak_256 msg).length = 32 := by
  simp only [keccak_256]
  rw [List.length_take, stateBytes_length,
    absorbN_length _ _ _ (List.length_replicate 25 0)]
  norm_num

/-- Every digest byte is below 256. -/
theorem keccak_256_lt (msg : List Nat) : ∀ b ∈ keccak_256 msg, b < 256 := by
  intro b hb
  simp only [keccak_256] at hb
  exact stateBytes_lt _ b (List.take_subset _ _ hb)

/-- A hex digit of a value below 16 is a lowercase hexadecimal character. -/
theorem hexChar_mem (n : Nat) (h : n < 16) : hexChar n ∈ hexCharsList := by
  interval_cases n <;> decide

/-- Hex rendering yields two characters per byte. -/
theorem hexOfBytes_length (bs : List Nat) : (hexOfBytes bs).length = 2 * bs.length := by
  induction bs with
  | nil => rfl
  | cons b t ih =>
    simp only [hexOfBytes, List.flatMap_cons, List.length_append,
      List.length_cons, List.length_nil] at *
    omega

/-- Hex rendering of bytes below 256 yields only lowercase hex characters. -/
theorem hexOfBytes_mem (bs : List Nat) (hb : ∀ b ∈ bs, b < 256) :
    ∀ c ∈ hexOfBytes bs, c ∈ hexCharsList := by
  intro c hc
  simp only [hexOfBytes, List.mem_flatMap] at hc
  obtain ⟨b, hbs, hcb⟩ := hc
  have h256 := hb b hbs
  simp only [List.mem_cons, List.not_mem_nil, or_false] at hcb
  rcases hcb with rfl | rfl
  · exact hexChar_mem _ (by omega)
  · exact hexChar_mem _ (by omega)

/-- The characters of a hexdigest. -/
theorem hexdigest_data (bs : List Nat) : (hexdigest bs).data = hexOfBytes bs := rfl

/-- A hexdigest has two characters per byte. -/
theorem hexdigest_length (bs : List Nat) : (hexdigest bs).length = 2 * bs.length := by
  have h : (hexdigest bs).length = (hexOfBytes bs).length := rfl
  rw [h, hexOfBytes_length]

/-- The printed digest is always exactly 64 characters. -/
theorem digestOf_length (s : String) : (digestOf s).length = 64 := by
  simp only [digestOf]
  rw [hexdigest_length, keccak_256_length]

/-- Every character of the printed digest is a lowercase hex character. -/
theorem digestOf_mem_hex (s : String) : ∀ c ∈ (digestOf s).data, c ∈ hexCharsList := by
  intro c hc
  have hd : (digestOf s).data = hexOfBytes (keccak_256 (strEncode s)) := rfl
  rw [hd] at hc
  exact hexOfBytes_mem _ (keccak_256_lt _) c hc

/-! ## Claims -/

/-- Claim C1: for every input string the hex digest printed by the script is
exactly 64 characters long, consists only of lowercase hexadecimal
characters, and renders a 32-byte Keccak-256 output; this holds for any
input, including the empty string. -/
theorem digest_always_64_lowercase_hex (s : String) :
    (digestOf s).length = 64 ∧
    (∀ c ∈ (digestOf s).data, c ∈ hexCharsList) ∧
    (keccak_256 (strEncode s)).length = 32 ∧
    digestOf s = hexdigest (keccak_256 (strEncode s)) :=
  ⟨digestOf_length s, digestOf_mem_hex s, keccak_256_length _, rfl⟩

/-- Counterexample to claim C2: the digest of the empty string is not the
63-character string given in the spec; the actual digest has 64 characters
while the spec string has 63 (its trailing zero is missing). -/
theorem empty_digest_ne_spec_string :
    digestOf "" ≠
      "c5d2460186f7233c927e7db2dcc703c0e500b653ca82273b7bfad8045d85a47" ∧
    "c5d2460186f7233c927e7db2dcc703c0e500b653ca82273b7bfad8045d85a47".length = 63 := by
  refine ⟨fun h => ?_, by decide⟩
  have h64 := digestOf_length ""
  rw [h] at h64
  exact absurd h64 (by decide)

set_option maxRecDepth 100000 in
/-- Claim C2 as amended: hashing the UTF-8 encoding of the empty string with
the script's hash step yields the 64-character hex digest
c5d2460186f7233c927e7db2dcc703c0e500b653ca82273b7bfad8045d85a470, exactly as
printed by the script when the user enters an empty line. -/
theorem empty_digest_value :
    digestOf "" =
      "c5d2460186f7233c927e7db2dcc703c0e500b653ca82273b7bfad8045d85a470" := by
  decide

set_option maxRecDepth 100000 in
/-- Claim C3: hashing the UTF-8 bytes of the string abc with the script's
hash step yields the hex digest
4e03657aea45a94fc7d47ba826c8d667c0d1e6e33a64a036ec44f58fa12d6c45, exactly as
printed by the script when the user enters the line abc. -/
theorem abc_digest_value :
    digestOf "abc" =
      "4e03657aea45a94fc7d47ba826c8d667c0d1e6e33a64a036ec44f58fa12d6c45" := by
  decide

/-- Claim C4: two runs of the encode-then-hash pipeline on the same input
line print identical digest events, even when the surrounding clear-screen
statuses differ, and that common digest is a 64-character lowercase hex
string; the output depends only on the input line. -/
theorem digest_two_runs_identical (st1 st2 : Int) (s : String) :
    (programTrace st1 s)[5]? = (programTrace st2 s)[5]? ∧
    (programTrace st1 s)[5]? = some (Event.printPair afterLabel (digestOf s)) ∧
    (digestOf s).length = 64 ∧
    (∀ c ∈ (digestOf s).data, c ∈ hexCharsList) :=
  ⟨rfl, rfl, digestOf_length s, digestOf_mem_hex s⟩

set_option maxRecDepth 4000 in
/-- Claim C5: the byte sequence fed to the hash is exactly the UTF-8
encoding of the raw line the script read, with no other transformation; the
last two conjuncts check on concrete non-ASCII inputs that `strEncode`
really is UTF-8 (a two-byte and a three-byte code point). -/
theorem hashed_bytes_are_utf8_of_input (s : String) :
    (runData s).nama_ibu = s ∧
    (runData s).encoded = strEncode ((runData s).nama_ibu) ∧
    (runData s).obj_encoded = keccak_256 ((runData s).encoded) ∧
    (runData s).hexOut = digestOf s ∧
    strEncode "héllo" = [104, 195, 169, 108, 108, 111] ∧
    strEncode "€" = [226, 130, 172] :=
  ⟨rfl, rfl, rfl, rfl, by decide, by decide⟩

/-- Claim C6: on every run the script prints the exact text it read,
unmodified, and this echo event comes strictly before the digest event. -/
theorem echo_before_digest (clearStatus : Int) (s : String) :
    ∃ i j : Nat, i < j ∧
      (programTrace clearStatus s)[i]? = some (Event.printPair beforeLabel s) ∧
      (programTrace clearStatus s)[j]? =
        some (Event.printPair afterLabel (digestOf s)) :=
  ⟨4, 5, by norm_num, rfl, rfl⟩

/-- Counterexample to claim C7: on the run with input abc (clear status 0)
the clear-screen effect sits at index 3, before the echo at index 4, and no
indices place the echo before the clear before the digest; so the clear does
not occur between the two output actions. -/
theorem clear_not_between_outputs :
    (programTrace 0 "abc")[3]? = some (Event.clearScreen "CLS" 0) ∧
    (programTrace 0 "abc")[4]? = some (Event.printPair beforeLabel "abc") ∧
    ¬ ∃ i j k : Fin 6, (i : Nat) < (j : Nat) ∧ (j : Nat) < (k : Nat) ∧
      (programTrace 0 "abc")[(i : Nat)]? =
        some (Event.printPair beforeLabel "abc") ∧
      (programTrace 0 "abc")[(j : Nat)]? = some (Event.clearScreen "CLS" 0) ∧
      (programTrace 0 "abc")[(k : Nat)]? =
        some (Event.printPair afterLabel (digestOf "abc")) := by
  refine ⟨rfl, rfl, ?_⟩
  decide

/-- Claim C7 as amended: the attempt to clear the terminal screen occurs
after the input line is read and before both output actions, the echo of the
original text and the digest print. -/
theorem clear_after_read_before_outputs (clearStatus : Int) (s : String) :
    ∃ i j k l : Nat, i < j ∧ j < k ∧ k < l ∧
      (programTrace clearStatus s)[i]? = some (Event.readInput promptText s) ∧
      (programTrace clearStatus s)[j]? =
        some (Event.clearScreen "CLS" clearStatus) ∧
      (programTrace clearStatus s)[k]? = some (Event.printPair beforeLabel s) ∧
      (programTrace clearStatus s)[l]? =
        some (Event.printPair afterLabel (digestOf s)) :=
  ⟨2, 3, 4, 5, by norm_num, by norm_num, by norm_num, rfl, rfl, rfl, rfl⟩

/-- Claim C8: when standard input is closed or unreadable the run aborts
with the end-of-input error and a nonzero exit status; on every valid input
line the run completes totally, producing the full trace and exit status
zero. -/
theorem input_unavailable_fatal (clearStatus : Int) :
    runScript clearStatus none = Except.error RunError.inputUnavailable ∧
    exitCode (runScript clearStatus none) ≠ 0 ∧
    ∀ s : String, runScript clearStatus (some s) =
        Except.ok (programTrace clearStatus s) ∧
      exitCode (runScript clearStatus (some s)) = 0 :=
  ⟨rfl, by simp [runScript, exitCode], fun s => ⟨rfl, rfl⟩⟩

/-- Claim C10: the clear step runs the shell command CLS through a call that
returns a status code; whatever status the command returns, the run still
completes with its full six-event trace and the digest event is unchanged. -/
theorem clear_failure_harmless (r1 r2 : Int) (s : String) :
    (programTrace r1 s).length = 6 ∧
    (programTrace r1 s)[3]? = some (Event.clearScreen "CLS" r1) ∧
    (programTrace r1 s)[5]? = some (Event.printPair afterLabel (digestOf s)) ∧
    (programTrace r1 s)[5]? = (programTrace r2 s)[5]? ∧
    runScript r1 (some s) = Except.ok (programTrace r1 s) :=
  ⟨rfl, rfl, rfl, rfl, rfl⟩

end HomeworkBlockchain
